import Mathlib

/-!
# Verification of the ReUDP reliability layer

A shallow embedding of the ReUDP crate (src/message.rs, src/mode.rs,
src/error.rs, src/reudp.rs) together with theorems about its wire codec,
send/receive bookkeeping, and background scheduler loop.

Conventions of the embedding:
* Rust `u64` counters are `Nat` values kept below `2 ^ 64`; the increments
  `send_sequence += 1` and `recv_sequence += 1` are modelled with an explicit
  `% 2 ^ 64` (release-mode wrapping).
* Bytes are `Nat` values (`u8` values are below 256 where it matters).
* `HashMap<u64, Vec<u8>>` is modelled as an association list whose `insert`
  replaces an existing binding and whose `remove` filters the key out.
* `HashSet<SocketAddr>` is a duplicate-free list; `SocketAddr` is opaque and
  modelled as `Nat`.
* A Rust panic (out-of-bounds slice index) is an explicit `panicked` result.
* `Instant` timestamps are `Nat`; `duration_since` is truncated subtraction.
* The fallible socket is a parameter `net : Address → Option IoError` for
  sending (`none` = success) and an explicit `RecvOutcome` for receiving.
-/

namespace ReUDPModel

/-- Model of `SocketAddr`, opaque. -/
abbrev Address := Nat

/-- Model of `std::io::Error`: either a would-block condition or another error code. -/
inductive IoError where
  | wouldBlock : IoError
  | other (code : Nat) : IoError
deriving DecidableEq, Repr

/-- The `ReUDPError` enum from src/error.rs. -/
inductive ReUDPError where
  | IoError (e : IoError) : ReUDPError
  | ConnectionLost : ReUDPError
  | NoResponseFromServer : ReUDPError
deriving DecidableEq, Repr

/-- The `Mode` enum from src/mode.rs. -/
inductive Mode where
  | Server : Mode
  | Client (remote : Address) : Mode
deriving DecidableEq, Repr

/-- The `MessageType` enum from src/message.rs. -/
inductive MessageType where
  | Data : MessageType
  | Ack : MessageType
  | Heartbeat : MessageType
  | Unknown (tag : Nat) : MessageType
deriving DecidableEq, Repr

/-- The `Message` struct from src/message.rs. -/
structure Message where
  sequence : Nat
  message_type : MessageType
  payload : List Nat
deriving DecidableEq, Repr

/-- Model of `u64::to_be_bytes`: the eight big-endian bytes of a 64-bit value. -/
def u64ToBeBytes (n : Nat) : List Nat :=
  [n / 2 ^ 56 % 256, n / 2 ^ 48 % 256, n / 2 ^ 40 % 256, n / 2 ^ 32 % 256,
   n / 2 ^ 24 % 256, n / 2 ^ 16 % 256, n / 2 ^ 8 % 256, n % 256]

/-- Model of `u64::from_be_bytes`: recombine big-endian bytes into a value. -/
def u64FromBeBytes (bs : List Nat) : Nat :=
  bs.foldl (fun acc b => acc * 256 + b) 0

/-- The wire tag byte written by `Message::to_bytes` for each kind. -/
def MessageType.tagByte : MessageType → Nat
  | .Data => 0
  | .Ack => 1
  | .Heartbeat => 2
  | .Unknown t => t

/-- Model of `Message::to_bytes`: 8-byte big-endian sequence, tag byte, raw payload. -/
def Message.toBytes (m : Message) : List Nat :=
  u64ToBeBytes m.sequence ++ [m.message_type.tagByte] ++ m.payload

/-- Result of decoding: either a message, or the Rust panic raised by the
out-of-bounds slice `bytes[..8]` / index `bytes[8]` in `Message::from_bytes`. -/
inductive DecodeResult where
  | ok (m : Message) : DecodeResult
  | panicked : DecodeResult
deriving DecidableEq, Repr

/-- Model of `Message::from_bytes`. The source performs
`bytes[..8].try_into().unwrap()` and `bytes[8]` with no length guard, so any
input shorter than 9 bytes raises an index-out-of-bounds panic, modelled as
`panicked`. -/
def Message.fromBytes (bytes : List Nat) : DecodeResult :=
  if bytes.length < 9 then
    .panicked
  else
    let sequence := u64FromBeBytes (bytes.take 8)
    let message_type : MessageType :=
      match bytes.getD 8 0 with
      | 0 => .Data
      | 1 => .Ack
      | 2 => .Heartbeat
      | t => .Unknown t
    .ok ⟨sequence, message_type, bytes.drop 9⟩

/-! ## Connection state (the `ReUDP` struct of src/reudp.rs) -/

/-- Model of `HashMap::insert`: replaces any existing binding of the key. -/
def mapInsert (m : List (Nat × List Nat)) (k : Nat) (v : List Nat) :
    List (Nat × List Nat) :=
  (k, v) :: m.filter (fun p => !(p.1 == k))

/-- Model of `HashMap::remove`: drops the binding of the key, if any. -/
def mapRemove (m : List (Nat × List Nat)) (k : Nat) : List (Nat × List Nat) :=
  m.filter (fun p => !(p.1 == k))

/-- Model of `HashMap::get`: the value bound to the key, if any. -/
def mapLookup (m : List (Nat × List Nat)) (k : Nat) : Option (List Nat) :=
  (m.find? (fun p => p.1 == k)).map (fun p => p.2)

/-- Model of `HashSet::insert`. -/
def setInsert (s : List Address) (a : Address) : List Address :=
  if a ∈ s then s else a :: s

/-- The mutable fields of the `ReUDP` struct (src/reudp.rs, lines 13-42).
The socket handle and `buffer_size` live outside the state model: the socket
is a parameter of each operation, and `buffer_size` only truncates inbound
datagrams before they reach `recv`. -/
structure ReUDPState where
  recv_buffer : List (Nat × List Nat)
  send_sequence : Nat
  recv_sequence : Nat
  unacked_packets : List (Nat × List Nat)
  mode : Mode
  clients : List Address
  last_heartbeat_time : Nat
  heartbeat_interval : Nat
  last_heartbeat_response_time : Option Nat
  last_ping_time : Option Nat
  current_ping : Option Nat
  running : Bool
deriving DecidableEq, Repr

/-- The peers a transmission fans out to: the fixed remote in `Client` mode,
the `clients` set in `Server` mode. -/
def peersOf (st : ReUDPState) : List Address :=
  match st.mode with
  | .Client remote => [remote]
  | .Server => st.clients

/-- The field initialisation of `ReUDP::new` after a successful bind
(src/reudp.rs, lines 65-80), at model time 0. -/
def initReUDP (mode : Mode) (heartbeat_interval : Nat) : ReUDPState :=
  { recv_buffer := []
    send_sequence := 0
    recv_sequence := 0
    unacked_packets := []
    mode := mode
    clients := []
    last_heartbeat_time := 0
    heartbeat_interval := heartbeat_interval
    last_heartbeat_response_time := none
    last_ping_time := none
    current_ping := none
    running := true }

/-- Model of `ReUDP::new` (src/reudp.rs, lines 57-84): binding and switching the
socket to non-blocking can each fail; the `?` operator surfaces either
failure to the caller before any state is built. -/
def ReUDPnew (bindResult : Option IoError) (nonblockingResult : Option IoError)
    (mode : Mode) (heartbeat_interval : Nat) : Except IoError ReUDPState :=
  match bindResult with
  | some e => .error e
  | none =>
    match nonblockingResult with
    | some e => .error e
    | none => .ok (initReUDP mode heartbeat_interval)

/-! ## `ReUDP::send` (src/reudp.rs, lines 169-189) -/

/-- The fan-out loop of `send`: `socket.send_to(&serialized, peer)?` for each
peer in turn; the first failure aborts the loop via `?`. On success the
result lists each transmission performed. -/
def sendLoop (net : Address → Option IoError) (serialized : List Nat) :
    List Address → Except IoError (List (Address × List Nat))
  | [] => .ok []
  | a :: rest =>
    match net a with
    | some e => .error e
    | none =>
      match sendLoop net serialized rest with
      | .error e => .error e
      | .ok sent => .ok ((a, serialized) :: sent)

/-- Model of `ReUDP::send`: build a Data message at `send_sequence`, transmit it to
every current peer, then (on transmit success) insert the serialized bytes
into `unacked_packets` when `require_ack`, and increment `send_sequence`.
A transmit failure returns through `?` before the insert and the increment,
leaving the state untouched. -/
def ReUDPsend (st : ReUDPState) (net : Address → Option IoError)
    (data : List Nat) (require_ack : Bool) :
    Except ReUDPError (List (Address × List Nat)) × ReUDPState :=
  let message : Message := ⟨st.send_sequence, .Data, data⟩
  let serialized := message.toBytes
  match sendLoop net serialized (peersOf st) with
  | .error e => (.error (.IoError e), st)
  | .ok sent =>
    let st1 :=
      if require_ack then
        { st with unacked_packets :=
            mapInsert st.unacked_packets st.send_sequence serialized }
      else st
    (.ok sent, { st1 with send_sequence := (st1.send_sequence + 1) % 2 ^ 64 })

/-! ## `ReUDP::recv` (src/reudp.rs, lines 196-243) -/

/-- Outcome of `socket.recv_from(&mut buf)`: a datagram (already truncated to
`buffer_size` by the transport), a would-block condition, or another error. -/
inductive RecvOutcome where
  | wouldBlock : RecvOutcome
  | fail (e : IoError) : RecvOutcome
  | datagram (addr : Address) (bytes : List Nat) : RecvOutcome
deriving DecidableEq, Repr

/-- What a call to `recv` returns: `Ok(None)` / `Ok(Some((addr, payload)))`,
an error, or the panic propagated from `Message::from_bytes`. -/
inductive RecvResult where
  | ok (r : Option (Address × List Nat)) : RecvResult
  | err (e : ReUDPError) : RecvResult
  | panicked : RecvResult
deriving DecidableEq, Repr

/-- The `if let Mode::Server = self.mode` step at the top of `recv`'s
datagram handling: `self.clients.insert(addr)` in Server mode. -/
def noteSender (st : ReUDPState) (addr : Address) : ReUDPState :=
  match st.mode with
  | .Server => { st with clients := setInsert st.clients addr }
  | .Client _ => st

/-- Model of `ReUDP::recv`, at model time `now`. `net` is the socket's send side (used
for the Ack and Heartbeat replies, each behind `?`). Besides the result and
the new state it returns the list of reply transmissions performed.

Line-by-line from the source: a would-block receive is `Ok(None)`; any other
receive error becomes `Err(IoError)`; a datagram is decoded by
`Message::from_bytes` with no length guard (a short datagram panics); in
Server mode the sender is added to `clients`; then the message kind is
dispatched: Data acks the sender then either delivers in-order and bumps
`recv_sequence`, or buffers; Ack removes the sequence from
`unacked_packets`; Heartbeat replies, records the response time, and sets
`current_ping` from `last_heartbeat_response_time.map(|t| t.elapsed())`,
which measures from the response timestamp just stored (zero at model
granularity); Unknown is logged and ignored. -/
def ReUDPrecv (st : ReUDPState) (net : Address → Option IoError)
    (outcome : RecvOutcome) (now : Nat) :
    RecvResult × ReUDPState × List (Address × List Nat) :=
  match outcome with
  | .wouldBlock => (.ok none, st, [])
  | .fail e => (.err (.IoError e), st, [])
  | .datagram addr bytes =>
    match Message.fromBytes bytes with
    | .panicked => (.panicked, st, [])
    | .ok message =>
      let st := noteSender st addr
      match message.message_type with
      | .Data =>
        let serialized_ack := (Message.mk message.sequence .Ack []).toBytes
        match net addr with
        | some e => (.err (.IoError e), st, [])
        | none =>
          if message.sequence == st.recv_sequence then
            (.ok (some (addr, message.payload)),
             { st with recv_sequence := (st.recv_sequence + 1) % 2 ^ 64 },
             [(addr, serialized_ack)])
          else
            (.ok none,
             { st with recv_buffer :=
                 mapInsert st.recv_buffer message.sequence message.payload },
             [(addr, serialized_ack)])
      | .Ack =>
        (.ok none,
         { st with unacked_packets :=
             mapRemove st.unacked_packets message.sequence },
         [])
      | .Heartbeat =>
        let serialized_response := (Message.mk 0 .Heartbeat []).toBytes
        match net addr with
        | some e => (.err (.IoError e), st, [])
        | none =>
          (.ok none,
           { st with
               last_heartbeat_response_time := some now
               current_ping := some (now - now) },
           [(addr, serialized_response)])
      | .Unknown _ => (.ok none, st, [])

/-! ## The background scheduler (`ReUDP::start_heartbeat`, lines 87-157)

`start_heartbeat` spawns a thread whose captured state is built from
*clones* of the connection fields: `self.unacked_packets.clone()`,
`self.clients.clone()`, `Arc::new(Mutex::new(...))` around each cloned
timestamp. Only `running` and the socket are shared with the foreground
(`Arc::clone`). The thread therefore operates on a private snapshot taken at
construction time; foreground mutations of `self.unacked_packets`,
`self.clients`, `self.last_heartbeat_response_time`, ... never reach it. -/

/-- The scheduler thread's captured state. -/
structure SchedState where
  unacked : List (Nat × List Nat)
  clients : List Address
  mode : Mode
  heartbeat_interval : Nat
  last_heartbeat : Nat
  last_response_time : Option Nat
  ping_time : Option Nat
  ping : Option Nat
  running : Bool
deriving DecidableEq, Repr

/-- The clone of the connection fields performed at the top of
`start_heartbeat` (src/reudp.rs, lines 88-97). -/
def startHeartbeat (st : ReUDPState) : SchedState :=
  { unacked := st.unacked_packets
    clients := st.clients
    mode := st.mode
    heartbeat_interval := st.heartbeat_interval
    last_heartbeat := st.last_heartbeat_time
    last_response_time := st.last_heartbeat_response_time
    ping_time := st.last_ping_time
    ping := st.current_ping
    running := st.running }

/-- The scheduler's fan-out targets (same shape as `peersOf`, but over the
thread's cloned `mode` and `clients`). -/
def schedPeers (s : SchedState) : List Address :=
  match s.mode with
  | .Client remote => [remote]
  | .Server => s.clients

/-- One iteration of the scheduler loop body at model time `now`
(src/reudp.rs, lines 100-154): (a) resend every cloned unacked packet to
every peer; (b) if `now - last_heartbeat > heartbeat_interval`, broadcast a
heartbeat, set `ping_time := now` and reset `last_heartbeat := now`; (c) if
a response was ever observed, either declare the connection lost after
`2 * heartbeat_interval` of response silence or refresh `ping`; otherwise
declare no-response when `now - last_heartbeat > 2 * heartbeat_interval`.
Returns the new state and the transmissions performed. -/
def schedTick (s : SchedState) (now : Nat) : SchedState × List (Address × List Nat) :=
  let resendOut := s.unacked.flatMap (fun p => (schedPeers s).map (fun a => (a, p.2)))
  let serialized_heartbeat := (Message.mk 0 .Heartbeat []).toBytes
  let hb :=
    if now - s.last_heartbeat > s.heartbeat_interval then
      ({ s with ping_time := some now, last_heartbeat := now },
       (schedPeers s).map (fun a => (a, serialized_heartbeat)))
    else (s, ([] : List (Address × List Nat)))
  let s1 := hb.1
  let s2 :=
    match s1.last_response_time with
    | some response_time =>
      if now - response_time > s1.heartbeat_interval * 2 then
        { s1 with running := false }
      else
        match s1.ping_time with
        | some sent_time => { s1 with ping := some (now - sent_time) }
        | none => s1
    | none =>
      if now - s1.last_heartbeat > s1.heartbeat_interval * 2 then
        { s1 with running := false }
      else s1
  (s2, resendOut ++ hb.2)

/-- Runs `n` iterations of the scheduler loop, one per second starting at time
`t` (the loop body ends in `thread::sleep(Duration::from_secs(1))`), with
the `while *running` guard. -/
def schedRun (s : SchedState) (t : Nat) : Nat → SchedState
  | 0 => s
  | n + 1 => if s.running then schedRun (schedTick s t).1 (t + 1) n else s

/-- All transmissions the scheduler performs over `n` iterations. -/
def schedRunOut (s : SchedState) (t : Nat) : Nat → List (Address × List Nat)
  | 0 => []
  | n + 1 =>
    if s.running then (schedTick s t).2 ++ schedRunOut (schedTick s t).1 (t + 1) n
    else []

/-! ## Auxiliary definitions used by the statements -/

/-- A socket whose send side always succeeds. -/
def netOk : Address → Option IoError := fun _ => none

/-- A socket whose send side always fails with `e`. -/
def netFailing (e : IoError) : Address → Option IoError := fun _ => some e

/-- The sequence numbers assigned by a series of `send` calls, one
`(payload, require_ack)` pair per call: each call's assigned sequence is the
`send_sequence` of the state it runs in. -/
def sentSequences (st : ReUDPState) (net : Address → Option IoError) :
    List (List Nat × Bool) → List Nat
  | [] => []
  | (d, r) :: rest =>
    st.send_sequence :: sentSequences (ReUDPsend st net d r).2 net rest

/-- The wire frame of the heartbeat probe `Message::new(0, Heartbeat, vec![])`. -/
def heartbeatFrame : List Nat := (Message.mk 0 .Heartbeat []).toBytes

/-! ## Codec lemmas -/

theorem u64_roundtrip (n : Nat) (h : n < 2 ^ 64) :
    u64FromBeBytes (u64ToBeBytes n) = n := by
  simp only [u64ToBeBytes, u64FromBeBytes, List.foldl]
  omega

theorem toBytes_length (m : Message) :
    m.toBytes.length = 9 + m.payload.length := by
  simp [Message.toBytes, u64ToBeBytes]; omega

theorem toBytes_take8 (m : Message) :
    m.toBytes.take 8 = u64ToBeBytes m.sequence := rfl

theorem toBytes_getD8 (m : Message) :
    m.toBytes.getD 8 0 = m.message_type.tagByte := rfl

theorem toBytes_drop9 (m : Message) :
    m.toBytes.drop 9 = m.payload := rfl

/-- Decoding an encoded message succeeds and reproduces every field, as long
as the sequence fits in 64 bits and an `Unknown` kind does not reuse one of
the reserved tag bytes 0, 1, 2. -/
theorem fromBytes_toBytes (m : Message) (hseq : m.sequence < 2 ^ 64)
    (htag : match m.message_type with
            | .Unknown t => 3 ≤ t ∧ t < 256
            | _ => True) :
    Message.fromBytes m.toBytes = .ok m := by
  have hlen : ¬ m.toBytes.length < 9 := by
    rw [toBytes_length]; omega
  rw [Message.fromBytes, if_neg hlen, toBytes_take8, toBytes_getD8,
    toBytes_drop9, u64_roundtrip m.sequence hseq]
  obtain ⟨seq, mt, pl⟩ := m
  cases mt with
  | Data => rfl
  | Ack => rfl
  | Heartbeat => rfl
  | Unknown t =>
    obtain ⟨k, rfl⟩ : ∃ k, t = k + 3 := ⟨t - 3, by omega⟩
    rfl

/-! ## Send lemmas -/

theorem sendLoop_ok_eq (net : Address → Option IoError) (s : List Nat) :
    ∀ targets sent, sendLoop net s targets = .ok sent →
      sent = targets.map (fun a => (a, s)) := by
  intro targets
  induction targets with
  | nil => intro sent h; simpa [sendLoop] using h.symm
  | cons a rest ih =>
    intro sent h
    rw [sendLoop] at h
    cases hnet : net a with
    | some e => rw [hnet] at h; exact absurd h (by simp)
    | none =>
      rw [hnet] at h
      cases hrec : sendLoop net s rest with
      | error e => rw [hrec] at h; exact absurd h (by simp)
      | ok sent0 =>
        rw [hrec] at h
        cases h
        simpa using ih sent0 hrec

theorem sendLoop_netOk (s : List Nat) (targets : List Address) :
    sendLoop netOk s targets = .ok (targets.map (fun a => (a, s))) := by
  induction targets with
  | nil => rfl
  | cons a rest ih => rw [sendLoop]; rw [ih]; rfl

theorem send_netOk_sequence (st : ReUDPState) (d : List Nat) (r : Bool) :
    ((ReUDPsend st netOk d r).2).send_sequence = (st.send_sequence + 1) % 2 ^ 64 := by
  rw [ReUDPsend]
  rw [sendLoop_netOk]
  cases r <;> rfl

theorem range'_cons (s n : Nat) :
    List.range' s (n + 1) = s :: List.range' (s + 1) n := rfl

theorem sentSequences_range (reqs : List (List Nat × Bool)) :
    ∀ st : ReUDPState, st.send_sequence + reqs.length ≤ 2 ^ 64 →
      sentSequences st netOk reqs = List.range' st.send_sequence reqs.length := by
  induction reqs with
  | nil => intro st h; rfl
  | cons hd rest ih =>
    intro st h
    obtain ⟨d, r⟩ := hd
    rw [sentSequences, List.length_cons, range'_cons]
    have hseq := send_netOk_sequence st d r
    cases rest with
    | nil => rfl
    | cons hd2 rest2 =>
      have hlt : st.send_sequence + 1 < 2 ^ 64 := by
        simp only [List.length_cons] at h; omega
      have := ih (ReUDPsend st netOk d r).2
        (by rw [hseq, Nat.mod_eq_of_lt hlt]
            simp only [List.length_cons] at h ⊢; omega)
      rw [this, hseq, Nat.mod_eq_of_lt hlt]

/-- C4: every successful `send` builds a Data message at the current
`send_sequence`, transmits it to every current peer, increments
`send_sequence` (wrapping, 64-bit) regardless of `require_ack`, and the
unacked table gains the encoded bytes at that sequence exactly when
`require_ack`; from a fresh state, `N` sends assign sequences `0..N-1`. -/
theorem C4_send_assigns_and_advances :
    (∀ (st : ReUDPState) (net : Address → Option IoError) (data : List Nat)
       (r : Bool) (sent : List (Address × List Nat)) (st2 : ReUDPState),
       ReUDPsend st net data r = (.ok sent, st2) →
       sent = (peersOf st).map
         (fun a => (a, Message.toBytes ⟨st.send_sequence, .Data, data⟩)) ∧
       st2.send_sequence = (st.send_sequence + 1) % 2 ^ 64 ∧
       st2.unacked_packets =
         (if r then
            mapInsert st.unacked_packets st.send_sequence
              (Message.toBytes ⟨st.send_sequence, .Data, data⟩)
          else st.unacked_packets)) ∧
    (∀ (mode : Mode) (hb : Nat) (reqs : List (List Nat × Bool)),
       reqs.length ≤ 2 ^ 64 →
       sentSequences (initReUDP mode hb) netOk reqs = List.range reqs.length) := by
  constructor
  · intro st net data r sent st2 h
    rw [ReUDPsend] at h
    cases hloop : sendLoop net (Message.toBytes ⟨st.send_sequence, .Data, data⟩)
        (peersOf st) with
    | error e => rw [hloop] at h; exact absurd h (by simp)
    | ok sent0 =>
      rw [hloop] at h
      cases h
      refine ⟨sendLoop_ok_eq net _ _ _ hloop, ?_, ?_⟩
      · cases r <;> rfl
      · cases r <;> rfl
  · intro mode hb reqs h
    have := sentSequences_range reqs (initReUDP mode hb)
      (by simpa [initReUDP] using h)
    rw [this]
    simp [initReUDP, List.range_eq_range']

/-- Witness for C4 at concrete inputs. -/
theorem C4_send_assigns_and_advances_witness :
    sentSequences (initReUDP (.Client 3) 1) netOk [([1], true), ([2], false)] =
      List.range 2 ∧
    ((ReUDPsend (initReUDP (.Client 3) 1) netOk [9] true).2).send_sequence =
      (0 + 1) % 2 ^ 64 := by
  constructor
  · exact C4_send_assigns_and_advances.2 (.Client 3) 1
      [([1], true), ([2], false)] (by decide)
  · exact (C4_send_assigns_and_advances.1 (initReUDP (.Client 3) 1) netOk
      [9] true _ _ rfl).2.1

/-- C10: a transmit failure inside `send` is returned before the unacked
insertion and the sequence increment, so the connection state is returned
unchanged. -/
theorem C10_send_atomic_on_failure (st : ReUDPState)
    (net : Address → Option IoError) (data : List Nat) (r : Bool) (e : IoError)
    (h : sendLoop net (Message.toBytes ⟨st.send_sequence, .Data, data⟩)
           (peersOf st) = .error e) :
    ReUDPsend st net data r = (.error (.IoError e), st) := by
  rw [ReUDPsend, h]

/-- Witness for C10: a client whose socket always fails. -/
theorem C10_send_atomic_on_failure_witness :
    ReUDPsend (initReUDP (.Client 2) 1) (netFailing (.other 7)) [1] true =
      (.error (.IoError (.other 7)), initReUDP (.Client 2) 1) :=
  C10_send_atomic_on_failure (initReUDP (.Client 2) 1) (netFailing (.other 7))
    [1] true (.other 7) rfl

/-- C9: a would-block receive is the normal `Ok(None)` outcome; any other
receive error, a bind or set-nonblocking failure, and a transmit failure in
`send` are each surfaced to the caller as an error. -/
theorem C9_errors_surfaced :
    (∀ (st : ReUDPState) (net : Address → Option IoError) (now : Nat),
       ReUDPrecv st net .wouldBlock now = (.ok none, st, [])) ∧
    (∀ (st : ReUDPState) (net : Address → Option IoError) (now : Nat)
       (e : IoError), ReUDPrecv st net (.fail e) now = (.err (.IoError e), st, [])) ∧
    (∀ (nb : Option IoError) (mode : Mode) (hb : Nat) (e : IoError),
       ReUDPnew (some e) nb mode hb = .error e) ∧
    (∀ (mode : Mode) (hb : Nat) (e : IoError),
       ReUDPnew none (some e) mode hb = .error e) ∧
    (∀ (st : ReUDPState) (data : List Nat) (r : Bool) (e : IoError),
       (ReUDPsend { st with mode := .Client 0 } (netFailing e) data r).1 =
         .error (.IoError e)) := by
  refine ⟨fun st net now => rfl, fun st net now e => rfl,
    fun nb mode hb e => rfl, fun mode hb e => rfl,
    fun st data r e => rfl⟩

/-! ## C3: codec round-trip -/

/-- C3 counterexample: the claim quantifies over `Unknown` with *any* raw tag
byte, but encoding `Unknown(0)` writes tag byte 0, which decodes back to
`Data`, not `Unknown(0)`. -/
theorem C3_roundtrip_counterexample :
    Message.fromBytes (Message.toBytes ⟨0, .Unknown 0, []⟩) ≠
      .ok ⟨0, .Unknown 0, []⟩ := by decide

/-- C3 (amended): for every message whose sequence fits in 64 bits and whose
kind, when `Unknown`, carries a tag byte outside the reserved tags 0, 1, 2,
decoding the encoding reproduces sequence, kind and payload exactly. -/
theorem C3_codec_roundtrip (m : Message) (hseq : m.sequence < 2 ^ 64)
    (htag : match m.message_type with
            | .Unknown t => 3 ≤ t ∧ t < 256
            | _ => True) :
    Message.fromBytes m.toBytes = .ok m :=
  fromBytes_toBytes m hseq htag

/-- Witness for C3 at a concrete `Unknown` message. -/
theorem C3_codec_roundtrip_witness :
    Message.fromBytes (Message.toBytes ⟨5, .Unknown 7, [1, 2, 3]⟩) =
      .ok ⟨5, .Unknown 7, [1, 2, 3]⟩ :=
  C3_codec_roundtrip ⟨5, .Unknown 7, [1, 2, 3]⟩ (by decide) (by exact ⟨by decide, by decide⟩)

/-! ## C2: undersized datagrams -/

/-- C2: on fewer than 9 bytes, `Message::from_bytes` does *not* fail cleanly:
its unguarded `bytes[..8]` / `bytes[8]` indexing panics, and `recv` feeds an
undersized datagram straight into it with no length check, so the panic
propagates out of `recv` (with the connection state untouched) instead of
the call proceeding as nothing-available. -/
theorem C2_short_datagram_panics (bytes : List Nat) (h : bytes.length < 9) :
    Message.fromBytes bytes = .panicked ∧
    ∀ (st : ReUDPState) (net : Address → Option IoError) (addr : Address)
      (now : Nat),
      ReUDPrecv st net (.datagram addr bytes) now = (.panicked, st, []) := by
  have hdec : Message.fromBytes bytes = .panicked := by
    rw [Message.fromBytes, if_pos h]
  refine ⟨hdec, fun st net addr now => ?_⟩
  rw [ReUDPrecv]
  rw [hdec]

/-- Witness for C2 at a concrete 3-byte datagram. -/
theorem C2_short_datagram_panics_witness :
    Message.fromBytes [1, 2, 3] = .panicked ∧
    ReUDPrecv (initReUDP .Server 1) netOk (.datagram 0 [1, 2, 3]) 0 =
      (.panicked, initReUDP .Server 1, []) :=
  ⟨(C2_short_datagram_panics [1, 2, 3] (by decide)).1,
   (C2_short_datagram_panics [1, 2, 3] (by decide)).2 (initReUDP .Server 1)
     netOk 0 0⟩

/-! ## Recv lemmas -/

theorem noteSender_recv_buffer (st : ReUDPState) (addr : Address) :
    (noteSender st addr).recv_buffer = st.recv_buffer := by
  rw [noteSender]; cases h : st.mode <;> simp

theorem noteSender_recv_sequence (st : ReUDPState) (addr : Address) :
    (noteSender st addr).recv_sequence = st.recv_sequence := by
  rw [noteSender]; cases h : st.mode <;> simp

theorem noteSender_send_sequence (st : ReUDPState) (addr : Address) :
    (noteSender st addr).send_sequence = st.send_sequence := by
  rw [noteSender]; cases h : st.mode <;> simp

theorem noteSender_unacked (st : ReUDPState) (addr : Address) :
    (noteSender st addr).unacked_packets = st.unacked_packets := by
  rw [noteSender]; cases h : st.mode <;> simp

theorem noteSender_mode (st : ReUDPState) (addr : Address) :
    (noteSender st addr).mode = st.mode := by
  rw [noteSender]; cases h : st.mode <;> simp [h]

/-- C5: an in-order Data datagram (and only then) is delivered with the
sender's address and bumps `recv_sequence`; any other Data datagram is
buffered under its sequence and delivers nothing; in both cases an
`Ack(seq)` is transmitted back to the sender. -/
theorem C5_recv_data (st : ReUDPState) (net : Address → Option IoError)
    (addr : Address) (bytes : List Nat) (now : Nat) (m : Message)
    (hdec : Message.fromBytes bytes = .ok m) (hkind : m.message_type = .Data)
    (hnet : net addr = none) :
    (ReUDPrecv st net (.datagram addr bytes) now).2.2 =
      [(addr, Message.toBytes ⟨m.sequence, .Ack, []⟩)] ∧
    (m.sequence = st.recv_sequence →
       (ReUDPrecv st net (.datagram addr bytes) now).1 =
         .ok (some (addr, m.payload)) ∧
       (ReUDPrecv st net (.datagram addr bytes) now).2.1.recv_sequence =
         (st.recv_sequence + 1) % 2 ^ 64 ∧
       (ReUDPrecv st net (.datagram addr bytes) now).2.1.recv_buffer =
         st.recv_buffer) ∧
    (m.sequence ≠ st.recv_sequence →
       (ReUDPrecv st net (.datagram addr bytes) now).1 = .ok none ∧
       (ReUDPrecv st net (.datagram addr bytes) now).2.1.recv_buffer =
         mapInsert st.recv_buffer m.sequence m.payload ∧
       (ReUDPrecv st net (.datagram addr bytes) now).2.1.recv_sequence =
         st.recv_sequence) := by
  by_cases hseq : m.sequence = st.recv_sequence <;>
    simp [ReUDPrecv, hdec, hkind, hnet, noteSender_recv_sequence,
      noteSender_recv_buffer, hseq, Message.toBytes]

/-- Witness for C5: a fresh server receives the in-order Data frame with
sequence 0 and payload `[5]` from address 4. -/
theorem C5_recv_data_witness :
    (ReUDPrecv (initReUDP .Server 1) netOk
        (.datagram 4 [0, 0, 0, 0, 0, 0, 0, 0, 0, 5]) 0).2.2 =
      [(4, Message.toBytes ⟨0, .Ack, []⟩)] ∧
    (ReUDPrecv (initReUDP .Server 1) netOk
        (.datagram 4 [0, 0, 0, 0, 0, 0, 0, 0, 0, 5]) 0).1 =
      .ok (some (4, [5])) := by
  have h := C5_recv_data (initReUDP .Server 1) netOk 4
    [0, 0, 0, 0, 0, 0, 0, 0, 0, 5] 0 ⟨0, .Data, [5]⟩ (by decide) rfl rfl
  exact ⟨h.1, (h.2.1 rfl).1⟩

/-! ## C6: Ack handling -/

theorem setInsert_self_mem (s : List Address) (a : Address) :
    a ∈ setInsert s a := by
  rw [setInsert]
  split
  · assumption
  · exact List.mem_cons_self a s

theorem setInsert_idem (s : List Address) (a : Address) :
    setInsert (setInsert s a) a = setInsert s a := by
  conv_lhs => rw [setInsert]
  rw [if_pos (setInsert_self_mem s a)]

theorem mapRemove_idem (m : List (Nat × List Nat)) (k : Nat) :
    mapRemove (mapRemove m k) k = mapRemove m k := by
  rw [mapRemove, mapRemove, List.filter_filter]
  simp

theorem mapLookup_mapRemove (m : List (Nat × List Nat)) (k : Nat) :
    mapLookup (mapRemove m k) k = none := by
  rw [mapLookup]
  have h : List.find? (fun p => p.1 == k) (mapRemove m k) = none := by
    rw [List.find?_eq_none]
    intro x hx
    rw [mapRemove] at hx
    have := List.of_mem_filter hx
    simpa using this
  rw [h]
  rfl

theorem noteSender_heartbeat_fields (st : ReUDPState) (addr : Address) :
    (noteSender st addr).last_heartbeat_time = st.last_heartbeat_time ∧
    (noteSender st addr).heartbeat_interval = st.heartbeat_interval ∧
    (noteSender st addr).last_heartbeat_response_time =
      st.last_heartbeat_response_time ∧
    (noteSender st addr).last_ping_time = st.last_ping_time ∧
    (noteSender st addr).current_ping = st.current_ping ∧
    (noteSender st addr).running = st.running := by
  rw [noteSender]; cases h : st.mode <;> simp

/-- The value of `recv` on an Ack datagram, in one equation. -/
theorem recv_ack_eq (st : ReUDPState) (net : Address → Option IoError)
    (addr : Address) (bytes : List Nat) (now : Nat) (m : Message)
    (hdec : Message.fromBytes bytes = .ok m)
    (hkind : m.message_type = .Ack) :
    ReUDPrecv st net (.datagram addr bytes) now =
      (.ok none,
       { noteSender st addr with
           unacked_packets :=
             mapRemove (noteSender st addr).unacked_packets m.sequence },
       []) := by
  simp only [ReUDPrecv, hdec, hkind]

theorem noteSender_stable (st : ReUDPState) (addr : Address)
    (u : List (Nat × List Nat)) :
    noteSender { noteSender st addr with unacked_packets := u } addr =
      { noteSender st addr with unacked_packets := u } := by
  cases hm : st.mode <;> simp [noteSender, hm, setInsert_idem]

/-- C6: the Ack branch of `recv` removes the acknowledged sequence from
`unacked_packets` (so a lookup afterwards finds nothing), changes no other
connection field, and is idempotent: feeding the same Ack datagram a second
time returns `Ok(None)` and leaves the state exactly as it was. -/
theorem C6_ack_removal_idempotent (st : ReUDPState)
    (net : Address → Option IoError) (addr : Address) (bytes : List Nat)
    (now : Nat) (m : Message) (hdec : Message.fromBytes bytes = .ok m)
    (hkind : m.message_type = .Ack) :
    (ReUDPrecv st net (.datagram addr bytes) now).1 = .ok none ∧
    (ReUDPrecv st net (.datagram addr bytes) now).2.2 = [] ∧
    (ReUDPrecv st net (.datagram addr bytes) now).2.1.unacked_packets =
      mapRemove st.unacked_packets m.sequence ∧
    mapLookup (ReUDPrecv st net (.datagram addr bytes) now).2.1.unacked_packets
      m.sequence = none ∧
    (ReUDPrecv st net (.datagram addr bytes) now).2.1.recv_buffer =
      st.recv_buffer ∧
    (ReUDPrecv st net (.datagram addr bytes) now).2.1.send_sequence =
      st.send_sequence ∧
    (ReUDPrecv st net (.datagram addr bytes) now).2.1.recv_sequence =
      st.recv_sequence ∧
    (ReUDPrecv st net (.datagram addr bytes) now).2.1.mode = st.mode ∧
    (ReUDPrecv st net (.datagram addr bytes) now).2.1.last_heartbeat_time =
      st.last_heartbeat_time ∧
    (ReUDPrecv st net (.datagram addr bytes) now).2.1.last_heartbeat_response_time =
      st.last_heartbeat_response_time ∧
    (ReUDPrecv st net (.datagram addr bytes) now).2.1.last_ping_time =
      st.last_ping_time ∧
    (ReUDPrecv st net (.datagram addr bytes) now).2.1.current_ping =
      st.current_ping ∧
    (ReUDPrecv st net (.datagram addr bytes) now).2.1.running = st.running ∧
    ReUDPrecv (ReUDPrecv st net (.datagram addr bytes) now).2.1 net
        (.datagram addr bytes) now =
      (.ok none, (ReUDPrecv st net (.datagram addr bytes) now).2.1, []) := by
  have hfields := noteSender_heartbeat_fields st addr
  have he := recv_ack_eq st net addr bytes now m hdec hkind
  rw [he]
  refine ⟨rfl, rfl, ?_, ?_, ?_, ?_, ?_, ?_, ?_, ?_, ?_, ?_, ?_, ?_⟩
  · exact congrArg (fun u => mapRemove u m.sequence) (noteSender_unacked st addr)
  · exact mapLookup_mapRemove _ m.sequence
  · exact noteSender_recv_buffer st addr
  · exact noteSender_send_sequence st addr
  · exact noteSender_recv_sequence st addr
  · exact noteSender_mode st addr
  · exact hfields.1
  · exact hfields.2.2.1
  · exact hfields.2.2.2.1
  · exact hfields.2.2.2.2.1
  · exact hfields.2.2.2.2.2
  · rw [recv_ack_eq _ net addr bytes now m hdec hkind, noteSender_stable]
    have hrem : mapRemove
        (mapRemove (noteSender st addr).unacked_packets m.sequence) m.sequence =
        mapRemove (noteSender st addr).unacked_packets m.sequence :=
      mapRemove_idem _ _
    simp [hrem]

/-- Witness for C6 at a concrete Ack datagram. -/
theorem C6_ack_removal_idempotent_witness :
    (ReUDPrecv { initReUDP (.Client 9) 1 with
        unacked_packets := [(0, [1])] } netOk
      (.datagram 9 [0, 0, 0, 0, 0, 0, 0, 0, 1]) 0).2.1.unacked_packets =
      mapRemove [(0, [1])] 0 := by
  have h := C6_ack_removal_idempotent
    { initReUDP (.Client 9) 1 with unacked_packets := [(0, [1])] } netOk 9
    [0, 0, 0, 0, 0, 0, 0, 0, 1] 0 ⟨0, .Ack, []⟩ (by decide) rfl
  exact h.2.2.1

/-! ## C7: heartbeat handling and the RTT sample -/

/-- The value of `recv` on a Heartbeat datagram whose reply transmission
succeeds, in one equation: the `current_ping` stored is
`last_heartbeat_response_time.map(|t| t.elapsed())` taken immediately after
setting that field to `now`, i.e. `now - now`. -/
theorem recv_heartbeat_eq (st : ReUDPState) (net : Address → Option IoError)
    (addr : Address) (bytes : List Nat) (now : Nat) (m : Message)
    (hdec : Message.fromBytes bytes = .ok m)
    (hkind : m.message_type = .Heartbeat) (hnet : net addr = none) :
    ReUDPrecv st net (.datagram addr bytes) now =
      (.ok none,
       { noteSender st addr with
           last_heartbeat_response_time := some now
           current_ping := some (now - now) },
       [(addr, Message.toBytes ⟨0, .Heartbeat, []⟩)]) := by
  simp only [ReUDPrecv, hdec, hkind, hnet]

/-- C7: on a Heartbeat, `recv` does reply with a Heartbeat and does record
the response time, but the stored RTT sample is the self-subtraction
`response_time.elapsed()` — always zero at the response instant — and never
`response time - matching ping send time`: with an outstanding ping sent at
any strictly earlier `p`, the stored sample differs from `now - p`. -/
theorem C7_heartbeat_ping_self_subtraction (st : ReUDPState)
    (net : Address → Option IoError) (addr : Address) (bytes : List Nat)
    (now : Nat) (m : Message) (hdec : Message.fromBytes bytes = .ok m)
    (hkind : m.message_type = .Heartbeat) (hnet : net addr = none) :
    (ReUDPrecv st net (.datagram addr bytes) now).2.2 =
      [(addr, Message.toBytes ⟨0, .Heartbeat, []⟩)] ∧
    (ReUDPrecv st net (.datagram addr bytes) now).2.1.last_heartbeat_response_time =
      some now ∧
    (ReUDPrecv st net (.datagram addr bytes) now).2.1.current_ping = some 0 ∧
    (∀ p, st.last_ping_time = some p → p < now →
       (ReUDPrecv st net (.datagram addr bytes) now).2.1.current_ping ≠
         some (now - p)) := by
  rw [recv_heartbeat_eq st net addr bytes now m hdec hkind hnet]
  refine ⟨rfl, rfl, by simp, ?_⟩
  intro p hp hlt
  simp only [Nat.sub_self]
  intro hcontra
  have : (0 : Nat) = now - p := Option.some.inj hcontra
  omega

/-- Witness for C7: heartbeat received at time 10 with an outstanding ping
sent at time 3; the stored sample is 0, not 7. -/
theorem C7_heartbeat_ping_self_subtraction_witness :
    (ReUDPrecv { initReUDP (.Client 9) 1 with last_ping_time := some 3 } netOk
        (.datagram 9 [0, 0, 0, 0, 0, 0, 0, 0, 2]) 10).2.1.current_ping =
      some 0 ∧
    (ReUDPrecv { initReUDP (.Client 9) 1 with last_ping_time := some 3 } netOk
        (.datagram 9 [0, 0, 0, 0, 0, 0, 0, 0, 2]) 10).2.1.current_ping ≠
      some (10 - 3) := by
  have h := C7_heartbeat_ping_self_subtraction
    { initReUDP (.Client 9) 1 with last_ping_time := some 3 } netOk 9
    [0, 0, 0, 0, 0, 0, 0, 0, 2] 10 ⟨0, .Heartbeat, []⟩ (by decide) rfl rfl
  exact ⟨h.2.2.1, h.2.2.2 3 rfl (by decide)⟩

/-! ## C8: the no-response liveness transition is unreachable -/

/-- One scheduler tick with no response ever observed cannot trip the
no-response shutdown: whenever `now - last_heartbeat > heartbeat_interval`
the heartbeat-send clause has just reset `last_heartbeat := now`, so the
subsequent check `now - last_heartbeat > 2 * heartbeat_interval` compares a
quantity that is at most `heartbeat_interval` against twice it. -/
theorem schedTick_no_response_keeps_running (s : SchedState) (t : Nat)
    (h : s.last_response_time = none) :
    (schedTick s t).1.running = s.running ∧
    (schedTick s t).1.last_response_time = none := by
  by_cases hd : t - s.last_heartbeat > s.heartbeat_interval
  · simp only [schedTick, if_pos hd, h]
    have : ¬ t - t > s.heartbeat_interval * 2 := by omega
    simp [this]
  · simp only [schedTick, if_neg hd, h]
    have hlt : ¬ t - s.last_heartbeat > s.heartbeat_interval * 2 := by omega
    simp [hlt, h]

/-- C8: contrary to the claim, a Facade that never observes a heartbeat
response never transitions to NoResponse for *any* heartbeat interval: the
scheduler's `running` flag stays true after every number of ticks, because
each tick that finds `now - last_heartbeat > heartbeat_interval` resends and
resets `last_heartbeat` before performing the `> 2×interval` check. -/
theorem C8_no_response_never_fires (s : SchedState) (t n : Nat)
    (hresp : s.last_response_time = none) (hrun : s.running = true) :
    (schedRun s t n).running = true := by
  induction n generalizing s t with
  | zero => exact hrun
  | succ k ih =>
    rw [schedRun, if_pos hrun]
    have h := schedTick_no_response_keeps_running s t hresp
    exact ih (schedTick s t).1 (t + 1) h.2 (h.1.trans hrun)

/-- Witness for C8: a freshly constructed client scheduler with heartbeat
interval 2 is still running after 100 ticks. -/
theorem C8_no_response_never_fires_witness :
    (schedRun (startHeartbeat (initReUDP (.Client 0) 2)) 0 100).running = true :=
  C8_no_response_never_fires (startHeartbeat (initReUDP (.Client 0) 2)) 0 100
    rfl rfl

/-! ## C1: the scheduler resends from a construction-time clone -/

/-- A scheduler tick never changes the thread's cloned unacked table. -/
theorem schedTick_unacked (s : SchedState) (t : Nat) :
    (schedTick s t).1.unacked = s.unacked := by
  simp only [schedTick]
  split <;> split <;> (try split) <;> (try split) <;> rfl

/-- With an empty cloned unacked table, every transmission a tick performs
is the heartbeat frame. -/
theorem schedTick_out_only_heartbeats (s : SchedState) (t : Nat)
    (h : s.unacked = []) :
    ((schedTick s t).2.all (fun p => p.2 == heartbeatFrame)) = true := by
  simp only [schedTick, h, List.flatMap_nil, List.nil_append]
  split <;> simp [heartbeatFrame]

/-- With an empty cloned unacked table, every transmission the scheduler
ever performs is the heartbeat frame. -/
theorem schedRunOut_only_heartbeats (n : Nat) :
    ∀ (s : SchedState) (t : Nat), s.unacked = [] →
      ((schedRunOut s t n).all (fun p => p.2 == heartbeatFrame)) = true := by
  induction n with
  | zero => intro s t h; rfl
  | succ k ih =>
    intro s t h
    rw [schedRunOut]
    by_cases hr : s.running = true
    · rw [if_pos hr, List.all_append, schedTick_out_only_heartbeats s t h,
        ih (schedTick s t).1 (t + 1) ((schedTick_unacked s t).trans h)]
      rfl
    · rw [if_neg hr]; rfl

/-- C1: the claim fails on the code. `start_heartbeat` captures
`self.unacked_packets.clone()` (and clones of the other fields), so the
scheduler thread owns a snapshot taken at construction: after construction
a `send(payload, require_ack = true)` stores the encoded Data frame in the
foreground unacked table, yet the scheduler's cloned table is still empty
and every transmission it ever performs — over any number of ticks starting
at any time — is the heartbeat frame, never the stored packet. The
foreground update is invisible to (hence lost on) the scheduler. -/
theorem C1_scheduler_never_resends_foreground_send :
    mapLookup
        ((ReUDPsend (initReUDP (.Client 7) 1) netOk [42] true).2).unacked_packets
        0 =
      some (Message.toBytes ⟨0, .Data, [42]⟩) ∧
    (startHeartbeat (initReUDP (.Client 7) 1)).unacked = [] ∧
    Message.toBytes ⟨0, .Data, [42]⟩ ≠ heartbeatFrame ∧
    ∀ (t n : Nat),
      ((schedRunOut (startHeartbeat (initReUDP (.Client 7) 1)) t n).all
          (fun p => p.2 == heartbeatFrame)) = true := by
  refine ⟨by decide, rfl, by decide, fun t n => ?_⟩
  exact schedRunOut_only_heartbeats n (startHeartbeat (initReUDP (.Client 7) 1))
    t rfl

end ReUDPModel
